import Mathlib

/-!
Shallow embedding of the PDF link-discovery pipeline of `dod_spending.py`
(`RateLimiter`, `SessionManager`, `PDFCache`, `PDFSearcher`,
`SearchApplication._perform_searches`).

Modelling conventions:
* Wall-clock time is a rational number.  `time.time()` is an explicit clock
  threaded through the state; `time.sleep(d)` advances the clock by exactly `d`
  (one admissible timing).
* The HTTP transport, the external search provider, the HTML parser's output
  (the `href` attributes BeautifulSoup would extract from a page body) and the
  pypdf metadata extractor are external collaborators, modelled by an
  environment `Env`.  A request that raises `requests.RequestException`
  (timeout, connection error, exhausted retries, `raise_for_status`) is an
  `Except.error`; these are the faults of the model.
* The two `ThreadPoolExecutor` fan-outs are modelled by sequential left folds
  over the submitted inputs in submission order: one admissible interleaving
  of the pool (the pool may serialize, so every property refuted on this
  interleaving is refuted on the code).
* The on-disk side of `PDFCache` is not modelled: `_save_cache` failures are
  non-fatal and the in-memory set is the authority within a run.
-/

namespace DodSpend

/-! ### Python string primitives

Models of the Python string operations the crawler uses, written over the
character list underlying `String` so that they reduce inside the kernel. -/

/-- Python `s.endswith(suffix)`. -/
def strEndsWith (s suffix : String) : Bool :=
  suffix.data.reverse.isPrefixOf s.data.reverse

/-- Python `s.startswith(pre)`. -/
def strStartsWith (s pre : String) : Bool :=
  pre.data.isPrefixOf s.data

/-- Python `s.lower()` (ASCII case folding). -/
def strToLower (s : String) : String :=
  ⟨s.data.map Char.toLower⟩

/-- Python `s[:n]` / reading the first `n` bytes of a body. -/
def strTake (s : String) (n : Nat) : String :=
  ⟨s.data.take n⟩

/-- `RateLimiter.__init__` state: the call budget, the trailing window in
seconds, and the recorded timestamps (`self.timestamps`). -/
structure RateLimiterState where
  calls : Nat
  period : ℚ
  timestamps : List ℚ
deriving Repr, DecidableEq

/-- `RateLimiter.__enter__`: filter the timestamps to the trailing window,
sleep when the budget is exhausted, then append the post-sleep clock reading.
Returns the new limiter state and the clock after the (possible) sleep. -/
def RateLimiter.enter (rl : RateLimiterState) (now : ℚ) : RateLimiterState × ℚ :=
  let ts := rl.timestamps.filter (fun t => now - t < rl.period)
  let clock :=
    if rl.calls ≤ ts.length then
      match ts with
      | [] => now  -- Python would raise IndexError on `timestamps[0]`; needs calls = 0
      | t0 :: _ =>
        let sleepTime := rl.period - (now - t0)
        if 0 < sleepTime then now + sleepTime else now
    else now
  ({ rl with timestamps := ts ++ [clock] }, clock)

/-- `RateLimiter.__exit__`: `pass` — the limiter state is untouched on exit. -/
def RateLimiter.exitCM (rl : RateLimiterState) : RateLimiterState :=
  rl

/-- The fields of `Config` consumed by the modelled core.  `timeout`,
`max_retries`, backoff and pooling parameters configure the transport, whose
post-retry outcome the environment provides directly. -/
structure Config where
  rateLimitCalls : Nat := 1
  rateLimitPeriod : ℚ := 2
  validatePdfContent : Bool := true
  extractMetadata : Bool := false
deriving Repr

/-- An HTTP response as the pipeline consumes it: status code, the
`Content-Type` header (`headers.get("Content-Type", "")`), the body (of which
`raw.read(5)` reads the first five characters), and the `href` attributes of
the `<a href=...>` tags the lenient HTML parser extracts from the body. -/
structure HttpResponse where
  status : Nat
  contentType : String
  body : String
  links : List String
deriving Repr, DecidableEq

/-- The external collaborators: transport (post-retry outcome per URL and
method), search provider (already capped at `search_results_limit`), and the
pypdf metadata extractor applied to a response body. -/
structure Env where
  head : String → Except Unit HttpResponse
  get : String → Except Unit HttpResponse
  search : String → Except Unit (List String)
  pdfMetadataAvailable : Bool
  extractMeta : String → List (String × String)

/-- A network request issued through the session manager. -/
inductive ReqEvent where
  | headReq (url : String)
  | getReq (url : String)
deriving Repr, DecidableEq

/-- The mutable state shared across the run: the session's rate limiter, the
clock, the in-memory URL cache (`PDFCache.memory_cache`), and the log of
network requests actually issued (for stating frame properties). -/
structure SysState where
  limiter : RateLimiterState
  clock : ℚ
  cache : Finset String
  trace : List ReqEvent
deriving DecidableEq

/-- `SessionManager.get`: acquire the rate limiter, then perform the GET.
The response (or transport failure) comes from the environment; the state
update is the same on success and failure. -/
def sessionGet (env : Env) (s : SysState) (url : String) :
    SysState × Except Unit HttpResponse :=
  let rc := RateLimiter.enter s.limiter s.clock
  ({ s with limiter := rc.1, clock := rc.2, trace := s.trace ++ [.getReq url] },
   env.get url)

/-- `SessionManager.head`: acquire the rate limiter, then perform the HEAD. -/
def sessionHead (env : Env) (s : SysState) (url : String) :
    SysState × Except Unit HttpResponse :=
  let rc := RateLimiter.enter s.limiter s.clock
  ({ s with limiter := rc.1, clock := rc.2, trace := s.trace ++ [.headReq url] },
   env.head url)

/-- `PDFCache.contains` on the in-memory set. -/
def cacheContains (s : SysState) (url : String) : Bool :=
  url ∈ s.cache

/-- `PDFCache.add`: insert into the in-memory set (the immediate disk flush is
non-fatal on failure and not modelled). -/
def cacheAdd (s : SysState) (url : String) : SysState :=
  { s with cache := insert url s.cache }

/-- A result dict produced by the searcher: `{"url": ..., "source": ...,
"metadata": ...}`, plus the `referring_page` key added on the scrape path
(absent = `none`). -/
structure PDFResult where
  url : String
  source : String
  referringPage : Option String
  metadata : List (String × String)
deriving Repr, DecidableEq

/-- `needle in hay` on Python strings: substring test. -/
def strContains (needle hay : String) : Bool :=
  go needle.data hay.data
where
  /-- Walk the haystack, testing the needle as a prefix at every position. -/
  go (n : List Char) : List Char → Bool
    | [] => n.isEmpty
    | c :: cs => n.isPrefixOf (c :: cs) || go n cs

/-- `PDFSearcher._check_direct_pdf`: HEAD the URL; require status 200 and a
PDF content type; when content validation is on, stream a GET and require the
five-byte magic prefix; optionally fetch again for metadata (its own failures
are swallowed).  Every transport failure yields `none`. -/
def checkDirectPdf (env : Env) (cfg : Config) (s : SysState) (url : String) :
    SysState × Option PDFResult :=
  let hr := sessionHead env s url
  match hr.2 with
  | .error _ => (hr.1, none)
  | .ok headResp =>
    if headResp.status ≠ 200 ∨ strContains "application/pdf" headResp.contentType = false then
      (hr.1, none)
    else
      checkContent hr.1
where
  /-- The content-validation step and the rest of the function. -/
  checkContent (s1 : SysState) : SysState × Option PDFResult :=
    if cfg.validatePdfContent then
      let gr := sessionGet env s1 url
      match gr.2 with
      | .error _ => (gr.1, none)
      | .ok getResp =>
        if strTake getResp.body 5 ≠ "%PDF-" then (gr.1, none)
        else buildResult gr.1
    else buildResult s1
  /-- Build the result dict; the metadata fetch swallows its own failures. -/
  buildResult (s2 : SysState) : SysState × Option PDFResult :=
    let base : PDFResult := ⟨url, "direct", none, []⟩
    if cfg.extractMetadata && env.pdfMetadataAvailable then
      let mr := sessionGet env s2 url
      match mr.2 with
      | .error _ => (mr.1, some base)
      | .ok metaResp => (mr.1, some { base with metadata := env.extractMeta metaResp.body })
    else (s2, some base)

/-! ### Model of `urllib.parse.urljoin`

`urljoin` is standard-library code, not repository code.  The model below
covers the subset the crawler exercises: hierarchical `http`/`https` base
URLs, and references that are either absolute (carry a scheme), network-path
(`//...`), absolute-path (`/...`) or relative, without dot-segments. -/

/-- Split a character list at the first occurrence of `://`. -/
def splitSchemeAux : List Char → Option (List Char × List Char)
  | [] => none
  | c :: cs =>
    if [':', '/', '/'].isPrefixOf (c :: cs) then some ([], cs.drop 2)
    else
      match splitSchemeAux cs with
      | some (a, b) => some (c :: a, b)
      | none => none

/-- Split `scheme://rest` at the first `://`. -/
def splitScheme (u : String) : Option (String × String) :=
  match splitSchemeAux u.data with
  | some (a, b) => some (⟨a⟩, ⟨b⟩)
  | none => none

/-- Does the reference carry its own scheme (`alpha *(alnum|+|-|.)` then `:`)? -/
def hasScheme (u : String) : Bool :=
  match u.data.span (fun c => c.isAlpha || c.isDigit || c == '+' || c == '-' || c == '.') with
  | (pre, c :: _) =>
    c == ':' && (match pre with | p :: _ => p.isAlpha | [] => false)
  | _ => false

/-- Split an authority-plus-path remainder at the start of the path. -/
def authSplit (r : String) : String × String :=
  (⟨r.data.takeWhile (fun c => c ≠ '/' && c ≠ '?' && c ≠ '#')⟩,
   ⟨r.data.dropWhile (fun c => c ≠ '/' && c ≠ '?' && c ≠ '#')⟩)

/-- The path component of a path-query-fragment string. -/
def pathOnly (pq : String) : String :=
  ⟨pq.data.takeWhile (fun c => c ≠ '?' && c ≠ '#')⟩

/-- The path component of an absolute URL (empty scheme-less fallback: the
whole string up to `?`/`#`). -/
def urlPath (u : String) : String :=
  match splitScheme u with
  | some (_, r) => pathOnly (authSplit r).2
  | none => pathOnly u

/-- The directory of a path: everything up to and including the last `/`
(root when the path has no `/`). -/
def dirOf (p : String) : String :=
  if p.data.contains '/' then ⟨(p.data.reverse.dropWhile (fun c => c ≠ '/')).reverse⟩
  else "/"

/-- Model of `urllib.parse.urljoin` on the subset described above. -/
def urljoin (base url : String) : String :=
  if url = "" then base
  else if hasScheme url then url
  else
    match splitScheme base with
    | none => url
    | some (sc, rest) =>
      let ap := authSplit rest
      let origin := sc ++ "://" ++ ap.1
      if strStartsWith url "//" then sc ++ ":" ++ url
      else if strStartsWith url "/" then origin ++ url
      else origin ++ dirOf (pathOnly ap.2) ++ url

/-! ### Scraping and searching -/

/-- First-occurrence deduplication: the set build-up
`pdf_urls = set(); pdf_urls.add(...)` read back as a list in insertion
order (one admissible iteration order of the Python set). -/
def dedupFirst : List String → List String
  | [] => []
  | x :: xs => x :: ((dedupFirst xs).filter (fun y => y ≠ x))

/-- The link-extraction stage of `PDFSearcher._scrape_page_for_pdfs` (the
spec's `PageScraper.extract_pdf_links`): keep every `href` whose lowercased
text ends in `.pdf`, resolve it against the page URL, deduplicate. -/
def extractPdfLinks (base : String) (hrefs : List String) : List String :=
  dedupFirst (hrefs.filterMap (fun h =>
    if strEndsWith (strToLower h) ".pdf" then some (urljoin base h) else none))

/-- The inner validation pool of `_scrape_page_for_pdfs`, in submission order:
validate each candidate link with `_check_direct_pdf` and tag each hit with
the referring page (`result["referring_page"] = url`). -/
def validateLinks (env : Env) (cfg : Config) (page : String) :
    SysState × List PDFResult → List String → SysState × List PDFResult
  | acc, [] => acc
  | acc, u :: us =>
    let cr := checkDirectPdf env cfg acc.1 u
    match cr.2 with
    | some r =>
      validateLinks env cfg page (cr.1, acc.2 ++ [{ r with referringPage := some page }]) us
    | none => validateLinks env cfg page (cr.1, acc.2) us

/-- `PDFSearcher._scrape_page_for_pdfs`: GET the page (transport failure or a
`raise_for_status` error status yields no results), extract the deduplicated
candidate links, then validate them. -/
def scrapePage (env : Env) (cfg : Config) (s : SysState) (url : String) :
    SysState × List PDFResult :=
  let gr := sessionGet env s url
  match gr.2 with
  | .error _ => (gr.1, [])
  | .ok resp =>
    if 400 ≤ resp.status ∧ resp.status < 600 then (gr.1, [])  -- raise_for_status
    else validateLinks env cfg url (gr.1, []) (extractPdfLinks url resp.links)

/-- `PDFSearcher._process_url`: skip cached URLs; otherwise classify by the
`.pdf` suffix, process, and add the URL to the cache.  The helpers absorb all
transport faults, so under the fault model the `except` branch that would skip
`cache.add` is unreachable. -/
def processUrl (env : Env) (cfg : Config) (s : SysState) (url : String) :
    SysState × List PDFResult :=
  if cacheContains s url then (s, [])
  else
    if strEndsWith (strToLower url) ".pdf" then
      let cr := checkDirectPdf env cfg s url
      match cr.2 with
      | some r => (cacheAdd cr.1 url, [r])
      | none => (cacheAdd cr.1 url, [])
    else
      let sr := scrapePage env cfg s url
      (cacheAdd sr.1 url, sr.2)

/-- The outer pool of `find_pdf_links`, in submission order: process every
search result, extending one result list (`pdf_results.extend(result)`). -/
def processUrls (env : Env) (cfg : Config) :
    SysState × List PDFResult → List String → SysState × List PDFResult
  | acc, [] => acc
  | acc, url :: rest =>
    let pr := processUrl env cfg acc.1 url
    processUrls env cfg (pr.1, acc.2 ++ pr.2) rest

/-- `PDFSearcher.find_pdf_links`: ask the provider (a provider exception is
caught and yields the empty list), then process every returned URL. -/
def findPdfLinks (env : Env) (cfg : Config) (s : SysState) (query : String) :
    SysState × List PDFResult :=
  match env.search query with
  | .error _ => (s, [])
  | .ok urls => processUrls env cfg (s, []) urls

/-! ### The coordinator -/

/-- The report under construction: a Python dict from query title to result
list, as an insertion-ordered association list. -/
abbrev Report := List (String × List PDFResult)

/-- Python dict assignment `d[k] = v`: overwrite in place, or append. -/
def dictInsert (d : Report) (k : String) (v : List PDFResult) : Report :=
  if d.any (fun p => p.1 = k) then d.map (fun p => if p.1 = k then (k, v) else p)
  else d ++ [(k, v)]

/-- `SearchApplication._perform_searches`, parametric in the per-query runner
so that a Python-level exception escaping `future.result()` is expressible as
an `Except.error`: on success the title is assigned; on exception the handler
only logs and the loop continues. -/
def performSearchesFrom
    (run : SysState → String → SysState × Except Unit (List PDFResult))
    (s : SysState) (rep : Report) : List (String × String) → SysState × Report
  | [] => (s, rep)
  | (title, query) :: rest =>
    let r := run s query
    match r.2 with
    | .ok rs => performSearchesFrom run r.1 (dictInsert rep title rs) rest
    | .error _ => performSearchesFrom run r.1 rep rest

/-- `_perform_searches` proper: start from the empty report. -/
def performSearches
    (run : SysState → String → SysState × Except Unit (List PDFResult))
    (s : SysState) (queries : List (String × String)) : SysState × Report :=
  performSearchesFrom run s [] queries

/-- `find_pdf_links` wrapped as a runner: under the fault model its body
catches every exception, so `future.result()` returns normally. -/
def runFind (env : Env) (cfg : Config) (s : SysState) (q : String) :
    SysState × Except Unit (List PDFResult) :=
  let r := findPdfLinks env cfg s q
  (r.1, .ok r.2)

/-! ### A concrete environment for witnesses and counterexamples -/

/-- The default `Config` values. -/
def defCfg : Config := {}

/-- A fresh run: limiter at the default budget, clock 0, empty cache. -/
def initState : SysState where
  limiter := { calls := 1, period := 2, timestamps := [] }
  clock := 0
  cache := ∅
  trace := []

/-- An HTML page response carrying the given anchor targets. -/
def htmlPage (ls : List String) : HttpResponse :=
  ⟨200, "text/html", "<html>", ls⟩

/-- A well-formed PDF response. -/
def pdfResp : HttpResponse :=
  ⟨200, "application/pdf", "%PDF-1.7", []⟩

/-- A small deterministic world: query `"q"` returns two HTML pages that both
link (relatively) to the same PDF; query `"qfail"` makes the provider raise. -/
def exEnv : Env where
  head := fun u =>
    if u = "http://a.test/doc.pdf" then .ok pdfResp
    else if u = "http://a.test/err.pdf" then .error ()
    else .ok ⟨200, "text/html", "", []⟩
  get := fun u =>
    if u = "http://a.test/p1.html" then .ok (htmlPage ["doc.pdf"])
    else if u = "http://a.test/p2.html" then .ok (htmlPage ["doc.pdf"])
    else if u = "http://a.test/doc.pdf" then .ok pdfResp
    else .error ()
  search := fun q =>
    if q = "q" then .ok ["http://a.test/p1.html", "http://a.test/p2.html"]
    else if q = "qdirect" then .ok ["http://a.test/doc.pdf"]
    else .error ()
  pdfMetadataAvailable := false
  extractMeta := fun _ => []

/-- A state in which one URL has already been processed in an earlier run. -/
def cachedState : SysState :=
  { initState with cache := {"http://a.test/doc.pdf"} }

/-- A per-query runner whose `future.result()` raises. -/
def failRun : SysState → String → SysState × Except Unit (List PDFResult) :=
  fun s _ => (s, .error ())

/-! ### Helper lemmas -/

/-- `SessionManager.get` does not touch the URL cache. -/
theorem sessionGet_cache (env : Env) (s : SysState) (url : String) :
    (sessionGet env s url).1.cache = s.cache := rfl

/-- `SessionManager.head` does not touch the URL cache. -/
theorem sessionHead_cache (env : Env) (s : SysState) (url : String) :
    (sessionHead env s url).1.cache = s.cache := rfl

/-- The result-building step of `_check_direct_pdf` does not touch the cache. -/
theorem buildResult_cache (env : Env) (cfg : Config) (url : String) (s2 : SysState) :
    (checkDirectPdf.buildResult env cfg url s2).1.cache = s2.cache := by
  unfold checkDirectPdf.buildResult
  dsimp only
  split
  · split <;> rfl
  · rfl

/-- The content-validation step of `_check_direct_pdf` does not touch the cache. -/
theorem checkContent_cache (env : Env) (cfg : Config) (url : String) (s1 : SysState) :
    (checkDirectPdf.checkContent env cfg url s1).1.cache = s1.cache := by
  unfold checkDirectPdf.checkContent
  dsimp only
  split
  · split
    · rfl
    · split
      · rfl
      · rw [buildResult_cache, sessionGet_cache]
  · exact buildResult_cache env cfg url s1

/-- `_check_direct_pdf` does not touch the cache. -/
theorem checkDirectPdf_cache (env : Env) (cfg : Config) (s : SysState) (url : String) :
    (checkDirectPdf env cfg s url).1.cache = s.cache := by
  unfold checkDirectPdf
  dsimp only
  split
  · rfl
  · split
    · rfl
    · rw [checkContent_cache, sessionHead_cache]

/-- The inner validation pool does not touch the cache. -/
theorem validateLinks_cache (env : Env) (cfg : Config) (page : String) :
    ∀ (l : List String) (s : SysState) (acc : List PDFResult),
      (validateLinks env cfg page (s, acc) l).1.cache = s.cache := by
  intro l
  induction l with
  | nil => intro s acc; rfl
  | cons u us ih =>
    intro s acc
    unfold validateLinks
    dsimp only
    split
    · rw [ih, checkDirectPdf_cache]
    · rw [ih, checkDirectPdf_cache]

/-- `_scrape_page_for_pdfs` does not touch the cache. -/
theorem scrapePage_cache (env : Env) (cfg : Config) (s : SysState) (url : String) :
    (scrapePage env cfg s url).1.cache = s.cache := by
  unfold scrapePage
  dsimp only
  split
  · rfl
  · split
    · rfl
    · rw [validateLinks_cache, sessionGet_cache]

/-! ### Claim theorems -/

/-- C2: a URL already present in the cache when `_process_url` reaches it is
skipped: the result list is empty and the whole state — including the request
trace and the rate limiter — is unchanged, so no HEAD, GET or page fetch is
issued for that URL. -/
theorem processUrl_cached_skips (env : Env) (cfg : Config) (s : SysState) (url : String)
    (h : cacheContains s url = true) :
    processUrl env cfg s url = (s, []) := by
  unfold processUrl
  rw [h]
  rfl

/-- Witness for C2 at a concrete cached URL. -/
theorem processUrl_cached_skips_witness :
    cacheContains cachedState "http://a.test/doc.pdf" = true ∧
    processUrl exEnv defCfg cachedState "http://a.test/doc.pdf" = (cachedState, []) :=
  ⟨by decide,
   processUrl_cached_skips exEnv defCfg cachedState "http://a.test/doc.pdf" (by decide)⟩

/-- C3: a URL not yet in the cache is added to the cache exactly once by
`_process_url`, for every environment — hence on transport success and failure
alike, and whether or not it validated as a PDF (the helpers absorb all
transport faults, so the `cache.add` line is always reached). -/
theorem processUrl_adds_to_cache (env : Env) (cfg : Config) (s : SysState) (url : String)
    (h : cacheContains s url = false) :
    (processUrl env cfg s url).1.cache = insert url s.cache := by
  unfold processUrl
  rw [h, if_neg Bool.false_ne_true]
  split
  · dsimp only
    split
    · show insert url (checkDirectPdf env cfg s url).1.cache = insert url s.cache
      rw [checkDirectPdf_cache]
    · show insert url (checkDirectPdf env cfg s url).1.cache = insert url s.cache
      rw [checkDirectPdf_cache]
  · show insert url (scrapePage env cfg s url).1.cache = insert url s.cache
    rw [scrapePage_cache]

/-- Witness for C3 at a concrete uncached URL (a transport-failing one, so the
failure branch is exercised). -/
theorem processUrl_adds_to_cache_witness :
    cacheContains initState "http://a.test/err.pdf" = false ∧
    (processUrl exEnv defCfg initState "http://a.test/err.pdf").1.cache
      = insert "http://a.test/err.pdf" initState.cache :=
  ⟨by decide,
   processUrl_adds_to_cache exEnv defCfg initState "http://a.test/err.pdf" (by decide)⟩

/-- C10: each `SessionManager.get`/`head` call filters the expired timestamps
and appends exactly one new timestamp to the shared rate limiter, records the
request, and leaves the state identical whatever the transport outcome — a
failed request consumes rate-limit budget exactly like a successful one, and
`RateLimiter.__exit__` is a no-op. -/
theorem session_requests_spend_budget (env env' : Env) (s : SysState) (url : String) :
    (sessionGet env s url).1 = (sessionGet env' s url).1 ∧
    (sessionGet env s url).1.limiter.timestamps
      = s.limiter.timestamps.filter (fun t => s.clock - t < s.limiter.period)
        ++ [(RateLimiter.enter s.limiter s.clock).2] ∧
    (sessionGet env s url).1.trace = s.trace ++ [ReqEvent.getReq url] ∧
    (sessionHead env s url).1 = (sessionHead env' s url).1 ∧
    (sessionHead env s url).1.limiter.timestamps
      = s.limiter.timestamps.filter (fun t => s.clock - t < s.limiter.period)
        ++ [(RateLimiter.enter s.limiter s.clock).2] ∧
    RateLimiter.exitCM (sessionGet env s url).1.limiter = (sessionGet env s url).1.limiter :=
  ⟨rfl, rfl, rfl, rfl, rfl, rfl⟩

/-- C6: when the external search provider raises for a query,
`find_pdf_links` catches the exception and returns the empty result list with
the state untouched, and the coordinator assigns that query's title the empty
list and proceeds with the remaining queries from an unchanged state. -/
theorem findPdfLinks_provider_failure (env : Env) (cfg : Config) (s : SysState)
    (q t : String) (rest : List (String × String)) (rep : Report)
    (h : env.search q = .error ()) :
    findPdfLinks env cfg s q = (s, []) ∧
    performSearchesFrom (runFind env cfg) s rep ((t, q) :: rest)
      = performSearchesFrom (runFind env cfg) s (dictInsert rep t []) rest := by
  have h1 : findPdfLinks env cfg s q = (s, []) := by
    unfold findPdfLinks
    rw [h]
  refine ⟨h1, ?_⟩
  have h2 : runFind env cfg s q = (s, Except.ok ([] : List PDFResult)) := by
    unfold runFind
    rw [h1]
  conv_lhs => rw [performSearchesFrom]
  rw [h2]

/-- Witness for C6 at the concrete query whose provider call raises. -/
theorem findPdfLinks_provider_failure_witness :
    exEnv.search "qfail" = Except.error () ∧
    findPdfLinks exEnv defCfg initState "qfail" = (initState, []) :=
  ⟨rfl, (findPdfLinks_provider_failure exEnv defCfg initState "qfail" "X" [] [] rfl).1⟩

/-- C7 is refuted at a concrete run: when the per-query computation raises at
`future.result()`, the handler only logs — the submitted title is absent from
the returned report (its lookup is `none`), not mapped to an empty list. -/
theorem performSearches_drops_failed_title :
    (performSearches failRun initState [("X", "qx")]).2 = [] ∧
    List.lookup "X" (performSearches failRun initState [("X", "qx")]).2 = none :=
  ⟨rfl, rfl⟩

/-- C7 amended: a query-level exception is caught and the loop continues with
the remaining queries, but the failed query's title is not assigned — the
report is passed on unchanged, whereas a normal result is assigned to the
title. -/
theorem performSearches_exception_step
    (run : SysState → String → SysState × Except Unit (List PDFResult))
    (s : SysState) (rep : Report) (t q : String) (rest : List (String × String)) :
    ((run s q).2 = Except.error () →
      performSearchesFrom run s rep ((t, q) :: rest)
        = performSearchesFrom run (run s q).1 rep rest) ∧
    (∀ rs, (run s q).2 = Except.ok rs →
      performSearchesFrom run s rep ((t, q) :: rest)
        = performSearchesFrom run (run s q).1 (dictInsert rep t rs) rest) := by
  constructor
  · intro h
    conv_lhs => rw [performSearchesFrom]
    rw [h]
  · intro rs h
    conv_lhs => rw [performSearchesFrom]
    rw [h]

/-- Witness for the amended C7 at a concrete failing runner. -/
theorem performSearches_exception_step_witness :
    (failRun initState "qx").2 = Except.error () ∧
    performSearchesFrom failRun initState [] [("X", "qx")]
      = performSearchesFrom failRun (failRun initState "qx").1 [] [] :=
  ⟨rfl, (performSearches_exception_step failRun initState [] "X" "qx" []).1 rfl⟩

/-- C8: `acquire` filters the recorded timestamps to the trailing window and,
after blocking while the budget is exhausted, records exactly one new
timestamp (the general first conjunct); with `calls = 1, period = 2.0`, a
second sequential acquire invoked at any clock `b` at or after the first
returns at a clock at least `2` after the first recorded timestamp. -/
theorem rateLimiter_enforces_spacing (a b : ℚ) (_hab : a ≤ b) :
    (∀ (rl : RateLimiterState) (now : ℚ),
      (RateLimiter.enter rl now).1.timestamps
        = rl.timestamps.filter (fun t => now - t < rl.period)
          ++ [(RateLimiter.enter rl now).2]) ∧
    (RateLimiter.enter ⟨1, 2, []⟩ a).2 = a ∧
    (RateLimiter.enter ⟨1, 2, []⟩ a).1.timestamps = [a] ∧
    2 ≤ (RateLimiter.enter (RateLimiter.enter ⟨1, 2, []⟩ a).1 b).2 - a := by
  refine ⟨fun rl now => rfl, rfl, rfl, ?_⟩
  have h1 : (RateLimiter.enter ⟨1, 2, []⟩ a).1 = ⟨1, 2, [a]⟩ := rfl
  rw [h1]
  unfold RateLimiter.enter
  by_cases hba : b - a < 2
  · have hpos : (0:ℚ) < 2 - (b - a) := by linarith
    simp [hba, hpos]
    linarith
  · simp [hba]
    linarith [not_lt.mp hba]

/-- Witness for C8 with both acquires at clock `0`. -/
theorem rateLimiter_enforces_spacing_witness :
    (0:ℚ) ≤ 0 ∧ 2 ≤ (RateLimiter.enter (RateLimiter.enter ⟨1, 2, []⟩ 0).1 0).2 - 0 :=
  ⟨le_refl 0, (rateLimiter_enforces_spacing 0 0 (le_refl 0)).2.2.2⟩

/-- Projection: the response of a session HEAD is the environment's answer. -/
theorem sessionHead_snd (env : Env) (s : SysState) (url : String) :
    (sessionHead env s url).2 = env.head url := rfl

/-- Projection: the response of a session GET is the environment's answer. -/
theorem sessionGet_snd (env : Env) (s : SysState) (url : String) :
    (sessionGet env s url).2 = env.get url := rfl

/-- The result-building step of `_check_direct_pdf` only produces results
whose url is the checked URL, whose source is `"direct"`, and which carry no
referring page. -/
theorem buildResult_some (env : Env) (cfg : Config) (url : String) (s2 : SysState) :
    ∀ r, (checkDirectPdf.buildResult env cfg url s2).2 = some r →
      r.url = url ∧ r.source = "direct" ∧ r.referringPage = none := by
  intro r h
  unfold checkDirectPdf.buildResult at h
  dsimp only at h
  revert h
  split
  · split
    · intro h
      injection h with h
      subst h
      exact ⟨rfl, rfl, rfl⟩
    · intro h
      injection h with h
      subst h
      exact ⟨rfl, rfl, rfl⟩
  · intro h
    injection h with h
    subst h
    exact ⟨rfl, rfl, rfl⟩

/-- The content-validation step only produces a result if, when validation is
enabled, the streamed GET succeeded and returned the PDF magic prefix; the
result's fields are those of the builder. -/
theorem checkContent_some (env : Env) (cfg : Config) (url : String) (s1 : SysState) :
    ∀ r, (checkDirectPdf.checkContent env cfg url s1).2 = some r →
      (r.url = url ∧ r.source = "direct" ∧ r.referringPage = none) ∧
      (cfg.validatePdfContent = true →
        ∃ gr, env.get url = .ok gr ∧ strTake gr.body 5 = "%PDF-") := by
  intro r h
  unfold checkDirectPdf.checkContent at h
  dsimp only at h
  rw [sessionGet_snd] at h
  revert h
  split
  · split
    · intro h
      cases h
    · next getResp heq =>
      split
      · intro h
        cases h
      · next hne =>
        intro h
        exact ⟨buildResult_some env cfg url _ r h, fun _ => ⟨getResp, heq, not_ne_iff.mp hne⟩⟩
  · next hv =>
    intro h
    exact ⟨buildResult_some env cfg url s1 r h, fun hvt => (hv hvt).elim⟩

/-- The content-validation step yields `none` whenever validation is enabled
and the streamed GET fails. -/
theorem checkContent_get_err (env : Env) (cfg : Config) (url : String) (s1 : SysState)
    (e : Unit) (hv : cfg.validatePdfContent = true) (hg : env.get url = .error e) :
    (checkDirectPdf.checkContent env cfg url s1).2 = none := by
  unfold checkDirectPdf.checkContent
  dsimp only
  rw [sessionGet_snd, hv, hg]
  rfl

/-- Characterization of `_check_direct_pdf`'s result by the transport's
answers. -/
theorem checkDirectPdf_snd_eq (env : Env) (cfg : Config) (s : SysState) (url : String) :
    (checkDirectPdf env cfg s url).2
      = match env.head url with
        | .error _ => none
        | .ok headResp =>
          if headResp.status ≠ 200 ∨ strContains "application/pdf" headResp.contentType = false
          then none
          else (checkDirectPdf.checkContent env cfg url (sessionHead env s url).1).2 := by
  unfold checkDirectPdf
  dsimp only
  rw [sessionHead_snd]
  cases env.head url with
  | error e => rfl
  | ok headResp =>
    dsimp only
    split
    · rfl
    · rfl

/-- C4: `_check_direct_pdf` yields a positive result only if the HEAD request
succeeded with status 200 and a Content-Type containing `application/pdf`,
and — when content validation is enabled — only if the streamed GET succeeded
and its first five bytes are `%PDF-`; a failing HEAD, or a failing GET during
validation, yields `none` instead of propagating the error. -/
theorem checkDirectPdf_validation (env : Env) (cfg : Config) (s : SysState) (url : String) :
    (∀ e, env.head url = .error e → (checkDirectPdf env cfg s url).2 = none) ∧
    (∀ e, cfg.validatePdfContent = true → env.get url = .error e →
      (checkDirectPdf env cfg s url).2 = none) ∧
    (∀ r, (checkDirectPdf env cfg s url).2 = some r →
      ∃ hr, env.head url = .ok hr ∧ hr.status = 200 ∧
        strContains "application/pdf" hr.contentType = true ∧
        (cfg.validatePdfContent = true →
          ∃ gr, env.get url = .ok gr ∧ strTake gr.body 5 = "%PDF-")) := by
  refine ⟨?_, ?_, ?_⟩
  · intro e he
    rw [checkDirectPdf_snd_eq, he]
  · intro e hv hg
    rw [checkDirectPdf_snd_eq]
    cases hh : env.head url with
    | error e2 => rfl
    | ok headResp =>
      dsimp only
      split
      · rfl
      · exact checkContent_get_err env cfg url _ e hv hg
  · intro r hr
    rw [checkDirectPdf_snd_eq] at hr
    revert hr
    cases hh : env.head url with
    | error e =>
      intro hr
      cases hr
    | ok headResp =>
      dsimp only
      split
      · intro hr
        cases hr
      · next hcond =>
        intro hr
        push_neg at hcond
        refine ⟨headResp, rfl, hcond.1, ?_, ?_⟩
        · exact Bool.ne_false_iff.mp hcond.2
        · exact fun hv => (checkContent_some env cfg url _ r hr).2 hv

/-- Witness for C4 at a concrete URL whose HEAD request raises. -/
theorem checkDirectPdf_validation_witness :
    exEnv.head "http://a.test/err.pdf" = Except.error () ∧
    (checkDirectPdf exEnv defCfg initState "http://a.test/err.pdf").2 = none :=
  ⟨rfl, (checkDirectPdf_validation exEnv defCfg initState "http://a.test/err.pdf").1 () rfl⟩

/-- Every result `_check_direct_pdf` produces has the checked URL, source
`"direct"` and no referring page. -/
theorem checkDirectPdf_some (env : Env) (cfg : Config) (s : SysState) (url : String) :
    ∀ r, (checkDirectPdf env cfg s url).2 = some r →
      r.url = url ∧ r.source = "direct" ∧ r.referringPage = none := by
  intro r hr
  rw [checkDirectPdf_snd_eq] at hr
  revert hr
  cases hh : env.head url with
  | error e =>
    intro hr
    cases hr
  | ok headResp =>
    dsimp only
    split
    · intro hr
      cases hr
    · intro hr
      exact (checkContent_some env cfg url _ r hr).1

/-- Members of the inner validation pool's output either come from the
accumulator or carry source `"direct"` and the referring page. -/
theorem validateLinks_mem (env : Env) (cfg : Config) (page : String) :
    ∀ (l : List String) (s : SysState) (acc : List PDFResult) (r : PDFResult),
      r ∈ (validateLinks env cfg page (s, acc) l).2 →
      r ∈ acc ∨ (r.source = "direct" ∧ r.referringPage = some page) := by
  intro l
  induction l with
  | nil =>
    intro s acc r hr
    exact Or.inl hr
  | cons u us ih =>
    intro s acc r hr
    unfold validateLinks at hr
    dsimp only at hr
    revert hr
    split
    · next r0 heq =>
      intro hr
      rcases ih _ _ r hr with hacc | hdone
      · rcases List.mem_append.mp hacc with h1 | h2
        · exact Or.inl h1
        · have h2' : r = { r0 with referringPage := some page } := List.mem_singleton.mp h2
          have hf := checkDirectPdf_some env cfg _ u r0 heq
          subst h2'
          exact Or.inr ⟨hf.2.1, rfl⟩
      · exact Or.inr hdone
    · intro hr
      exact ih _ _ r hr

/-- C9 is refuted at a concrete run: a PDF discovered by scraping an HTML page
is recorded with source `"direct"` (the code never writes `"scraped"`), only
its `referring_page` marks it as scraped. -/
theorem scraped_results_carry_direct_source :
    ((findPdfLinks exEnv defCfg initState "q").2.map (fun r => (r.source, r.referringPage))).head?
      = some ("direct", some "http://a.test/p1.html") ∧
    ("direct" : String) ≠ "scraped" :=
  ⟨rfl, by decide⟩

/-- C9 amended: every produced PDFResult carries source `"direct"`, however it
was discovered; `referring_page` is what distinguishes the discovery route —
absent on direct hits, set to the page URL exactly for scraped results. -/
theorem result_source_and_referring_page (env : Env) (cfg : Config) (s : SysState) (url : String) :
    (∀ r, (checkDirectPdf env cfg s url).2 = some r →
      r.url = url ∧ r.source = "direct" ∧ r.referringPage = none) ∧
    (∀ r, r ∈ (scrapePage env cfg s url).2 →
      r.source = "direct" ∧ r.referringPage = some url) := by
  refine ⟨checkDirectPdf_some env cfg s url, ?_⟩
  intro r hr
  unfold scrapePage at hr
  dsimp only at hr
  revert hr
  split
  · intro hr
    cases hr
  · split
    · intro hr
      cases hr
    · intro hr
      rcases validateLinks_mem env cfg url _ _ _ r hr with h1 | h2
      · cases h1
      · exact h2

/-- Witness for the amended C9 at a concrete scraped result. -/
theorem result_source_and_referring_page_witness :
    (⟨"http://a.test/doc.pdf", "direct", some "http://a.test/p1.html", []⟩ : PDFResult)
      ∈ (scrapePage exEnv defCfg initState "http://a.test/p1.html").2 ∧
    (PDFResult.mk "http://a.test/doc.pdf" "direct" (some "http://a.test/p1.html") []).source
      = "direct" ∧
    (PDFResult.mk "http://a.test/doc.pdf" "direct" (some "http://a.test/p1.html") []).referringPage
      = some "http://a.test/p1.html" := by
  have hm : (⟨"http://a.test/doc.pdf", "direct", some "http://a.test/p1.html", []⟩ : PDFResult)
      ∈ (scrapePage exEnv defCfg initState "http://a.test/p1.html").2 := by decide
  have hc := (result_source_and_referring_page exEnv defCfg initState "http://a.test/p1.html").2 _ hm
  exact ⟨hm, hc.1, hc.2⟩

/-- First-occurrence deduplication produces a list without duplicates. -/
theorem dedupFirst_nodup : ∀ l : List String, (dedupFirst l).Nodup := by
  intro l
  induction l with
  | nil => exact List.nodup_nil
  | cons x xs ih =>
    rw [dedupFirst]
    refine List.nodup_cons.mpr ⟨?_, ih.filter _⟩
    intro hx
    have hpx := List.of_mem_filter hx
    simp at hpx

/-- The extracted candidate links of one page carry no duplicates. -/
theorem extractPdfLinks_nodup (base : String) (hrefs : List String) :
    (extractPdfLinks base hrefs).Nodup := by
  unfold extractPdfLinks
  exact dedupFirst_nodup _

/-- The inner validation pool appends one result per validated candidate: the
urls of the appended results form a sublist of the processed candidates. -/
theorem validateLinks_urls_sublist (env : Env) (cfg : Config) (page : String) :
    ∀ (l : List String) (s : SysState) (acc : List PDFResult),
      ∃ extra, (validateLinks env cfg page (s, acc) l).2 = acc ++ extra ∧
        (extra.map (fun r => r.url)).Sublist l := by
  intro l
  induction l with
  | nil =>
    intro s acc
    exact ⟨[], by simp [validateLinks], List.nil_sublist []⟩
  | cons u us ih =>
    intro s acc
    unfold validateLinks
    dsimp only
    split
    · next r0 heq =>
      rcases ih (checkDirectPdf env cfg (s, acc).1 u).1
          (acc ++ [{ r0 with referringPage := some page }]) with ⟨extra, he, hs⟩
      refine ⟨{ r0 with referringPage := some page } :: extra, ?_, ?_⟩
      · rw [he]
        simp
      · have hu : ({ r0 with referringPage := some page } : PDFResult).url = u :=
          (checkDirectPdf_some env cfg _ u r0 heq).1
        dsimp only [List.map]
        rw [hu]
        exact hs.cons₂ u
    · rcases ih (checkDirectPdf env cfg (s, acc).1 u).1 acc with ⟨extra, he, hs⟩
      exact ⟨extra, he, hs.cons u⟩

/-- C1 is refuted at a concrete run: two pages in one query's search results
both link to the same PDF, and the query's result list then contains two
`PDFResult` entries with the same url — there is no query-level URL dedup
(scraped links are validated without consulting the cache or the other
pages' finds). -/
theorem findPdfLinks_duplicate_urls :
    ((findPdfLinks exEnv defCfg initState "q").2.map (fun r => r.url))
      = ["http://a.test/doc.pdf", "http://a.test/doc.pdf"] ∧
    ¬ (["http://a.test/doc.pdf", "http://a.test/doc.pdf"] : List String).Nodup :=
  ⟨rfl, by simp⟩

/-- C1 amended: URL dedup by set semantics happens only within one scraped
page's extracted link set — the result list of a single `_scrape_page_for_pdfs`
call never repeats a url. -/
theorem scrapePage_urls_nodup (env : Env) (cfg : Config) (s : SysState) (url : String) :
    (((scrapePage env cfg s url).2).map (fun r => r.url)).Nodup := by
  unfold scrapePage
  dsimp only
  split
  · exact List.nodup_nil
  · next resp heq =>
    split
    · exact List.nodup_nil
    · rcases validateLinks_urls_sublist env cfg url (extractPdfLinks url resp.links)
        (sessionGet env s url).1 [] with ⟨extra, he, hs⟩
      rw [he]
      simp only [List.nil_append]
      exact List.Nodup.sublist hs (extractPdfLinks_nodup url resp.links)

/-- First-occurrence deduplication preserves membership. -/
theorem mem_dedupFirst : ∀ (l : List String) (x : String), x ∈ dedupFirst l ↔ x ∈ l := by
  intro l
  induction l with
  | nil =>
    intro x
    simp [dedupFirst]
  | cons a as ih =>
    intro x
    rw [dedupFirst]
    by_cases hxa : x = a
    · subst hxa
      simp
    · simp [List.mem_cons, List.mem_filter, hxa, ih]

/-- C5 is refuted: a hyperlink target whose query string ends in `.pdf`
passes the filter — which tests the entire lowercased href text, not the URL
path — yet the resolved URL's path (here `/x`) does not end in `.pdf`. -/
theorem extractPdfLinks_query_string_cex :
    extractPdfLinks "http://a.test/index.html" ["x?q=.pdf"] = ["http://a.test/x?q=.pdf"] ∧
    urlPath "http://a.test/x?q=.pdf" = "/x" ∧
    strEndsWith (strToLower (urlPath "http://a.test/x?q=.pdf")) ".pdf" = false :=
  ⟨rfl, rfl, rfl⟩

/-- C5 amended: link extraction returns a deduplicated list containing
exactly the URL-joins (against the page URL) of those hyperlink targets whose
entire lowercased target string ends in `.pdf`; the resolved URL's path need
not end in `.pdf` (e.g. a target whose query string ends in `.pdf` passes),
and extraction is total, so malformed markup cannot raise. -/
theorem extractPdfLinks_spec (base : String) (hrefs : List String) :
    (extractPdfLinks base hrefs).Nodup ∧
    ∀ u, u ∈ extractPdfLinks base hrefs ↔
      ∃ h ∈ hrefs, strEndsWith (strToLower h) ".pdf" = true ∧ u = urljoin base h := by
  refine ⟨extractPdfLinks_nodup base hrefs, ?_⟩
  intro u
  unfold extractPdfLinks
  rw [mem_dedupFirst, List.mem_filterMap]
  constructor
  · rintro ⟨h, hh, hf⟩
    revert hf
    split
    · next hc =>
      intro hf
      injection hf with hf
      exact ⟨h, hh, hc, hf.symm⟩
    · intro hf
      cases hf
  · rintro ⟨h, hh, hc, hu⟩
    exact ⟨h, hh, by simp [hc, hu]⟩

end DodSpend
